import Mathlib

set_option maxHeartbeats 1000000
set_option maxRecDepth 4000

namespace Spades

/-- Suite of a card, from src/card/suite.rs. Spade is the trump suite. -/
inductive Suite
  | Spade
  | Heart
  | Club
  | Diamond
deriving DecidableEq, Repr

/-- Suite::to_index from src/card/suite.rs. -/
def Suite.toIndex : Suite → Nat
  | .Spade => 0
  | .Heart => 1
  | .Club => 2
  | .Diamond => 3

/-- Value of a card, from src/card/value.rs. Number carries the u8 payload. -/
inductive Value
  | Number (n : Nat)
  | Jack
  | Queen
  | King
  | Ace
deriving DecidableEq, Repr

/-- Value::to_index from src/card/value.rs. -/
def Value.toIndex : Value → Nat
  | .Number n => n - 2
  | .Jack => 9
  | .Queen => 10
  | .King => 11
  | .Ace => 12

/-- The strict less-than comparison on Value used by the derived Ord in
src/card/value.rs: Number payloads compare numerically and every Number is
below Jack, Queen, King, Ace in declaration order. -/
def Value.ltv : Value → Value → Bool
  | .Number a, .Number b => decide (a < b)
  | .Number _, _ => true
  | _, .Number _ => false
  | .Jack, .Jack => false
  | .Jack, _ => true
  | .Queen, .Jack => false
  | .Queen, .Queen => false
  | .Queen, _ => true
  | .King, .Ace => true
  | .King, _ => false
  | .Ace, _ => false

/-- Card, from src/card/mod.rs: a suite paired with a value. -/
structure Card where
  suite : Suite
  value : Value
deriving DecidableEq, Repr

/-- Card::to_index from src/card/mod.rs. -/
def Card.toIndex (c : Card) : Nat := c.suite.toIndex * 13 + c.value.toIndex

/-- card::Set from src/card/set.rs: a u64 bitmask over card indices. -/
structure CardSet where
  int : Nat
deriving DecidableEq, Repr

/-- Bitwise complement of a u64 value, as Rust computes with the ! operator. -/
def u64not (x : Nat) : Nat := x ^^^ ((1 <<< 64) - 1)

/-- Set::full from src/card/set.rs. -/
def CardSet.full : CardSet := ⟨(1 <<< 52) - 1⟩

/-- Set::suite from src/card/set.rs: the 13 cards of a suite. -/
def CardSet.suite (s : Suite) : CardSet := ⟨((1 <<< 13) - 1) <<< (s.toIndex * 13)⟩

/-- Set::contains from src/card/set.rs. -/
def CardSet.contains (s : CardSet) (c : Card) : Bool :=
  (s.int &&& (1 <<< c.toIndex)) != 0

/-- Set::is_empty from src/card/set.rs. -/
def CardSet.is_empty (s : CardSet) : Bool := s.int == 0

/-- The BitAnd impl for Set from src/card/set.rs: set intersection. -/
def CardSet.inter (a b : CardSet) : CardSet := ⟨a.int &&& b.int⟩

/-- The BitOr impl for Set from src/card/set.rs: set union. -/
def CardSet.union (a b : CardSet) : CardSet := ⟨a.int ||| b.int⟩

/-- The Sub impl for Set from src/card/set.rs: self.int AND NOT rhs.int. -/
def CardSet.sub (a b : CardSet) : CardSet := ⟨a.int &&& u64not b.int⟩

/-- The Not impl for Set from src/card/set.rs: full() - self. -/
def CardSet.not (a : CardSet) : CardSet := CardSet.sub CardSet.full a

/-- Set::insert from src/card/set.rs; returns whether the set changed
together with the new set. -/
def CardSet.insert (s : CardSet) (c : Card) : Bool × CardSet :=
  let mask := 1 <<< c.toIndex
  (decide ((s.int &&& mask) = 0), ⟨s.int ||| mask⟩)

/-- Set::remove from src/card/set.rs; returns whether the set changed
together with the new set. -/
def CardSet.remove (s : CardSet) (c : Card) : Bool × CardSet :=
  let mask := 1 <<< c.toIndex
  (decide ((s.int &&& mask) ≠ 0), ⟨s.int &&& u64not mask⟩)

/-- Player, from src/player/mod.rs. -/
inductive Player
  | One
  | Two
  | Three
  | Four
deriving DecidableEq, Repr

/-- Player::next from src/player/mod.rs, with wrapping. -/
def Player.next : Player → Player
  | .One => .Two
  | .Two => .Three
  | .Three => .Four
  | .Four => .One

/-- Player::teammate from src/player/mod.rs. -/
def Player.teammate (p : Player) : Player := p.next.next

/-- The four players in the order produced by Player::iter from
src/player/iterator.rs: rotation starting at this player, no repetition. -/
def Player.seq (p : Player) : List Player := [p, p.next, p.next.next, p.next.next.next]

/-- player::Array from src/player/array.rs: a fixed four-entry container
indexed by Player. -/
structure PArray (α : Type) where
  one : α
  two : α
  three : α
  four : α
deriving DecidableEq, Repr

/-- The Index impl for player::Array. -/
def PArray.get {α : Type} : PArray α → Player → α
  | a, .One => a.one
  | a, .Two => a.two
  | a, .Three => a.three
  | a, .Four => a.four

/-- Writing one entry of a player::Array (the IndexMut impl plus assignment). -/
def PArray.set {α : Type} : PArray α → Player → α → PArray α
  | a, .One, v => { a with one := v }
  | a, .Two, v => { a with two := v }
  | a, .Three, v => { a with three := v }
  | a, .Four, v => { a with four := v }

/-- Array::from_value / Array::fill from src/player/array.rs. -/
def PArray.from_value {α : Type} (v : α) : PArray α := ⟨v, v, v, v⟩

/-- Summing a player::Array of counters as tricks_taken.iter().sum() does in
src/game/public_state.rs. -/
def PArray.sum (a : PArray Nat) : Nat := a.one + a.two + a.three + a.four

/-- Trick, from src/trick.rs: the starting player and the four optional plays. -/
structure Trick where
  start_player : Player
  cards : PArray (Option Card)
deriving DecidableEq, Repr

/-- Trick::new from src/trick.rs: no cards played yet. -/
def Trick.new (p : Player) : Trick := ⟨p, PArray.from_value none⟩

/-- trick::Status from src/trick.rs. -/
inductive TrickStatus
  | Waiting (p : Player)
  | Won (p : Player) (c : Card)
deriving DecidableEq, Repr

/-- One iteration of the winner-scan loop in Trick::get_status from
src/trick.rs: a later card replaces the running best exactly when it shares
the best card suite with a higher value, or is a Spade while the best is not. -/
def winnerStep (best : Player × Card) (play : Player × Card) : Player × Card :=
  if play.2.suite = best.2.suite then
    if best.2.value.ltv play.2.value then play else best
  else if play.2.suite = Suite.Spade then play
  else best

/-- Trick::get_status from src/trick.rs: scan the rotation from the starting
player for an empty slot; if none, fold the winner scan over the four plays. -/
def Trick.get_status (t : Trick) : TrickStatus :=
  let p0 := t.start_player
  let p1 := p0.next
  let p2 := p1.next
  let p3 := p2.next
  match t.cards.get p0 with
  | none => .Waiting p0
  | some c0 =>
    match t.cards.get p1 with
    | none => .Waiting p1
    | some c1 =>
      match t.cards.get p2 with
      | none => .Waiting p2
      | some c2 =>
        match t.cards.get p3 with
        | none => .Waiting p3
        | some c3 =>
          let w := winnerStep (winnerStep (winnerStep (p0, c0) (p1, c1)) (p2, c2)) (p3, c3)
          .Won w.1 w.2

/-- Trick::get_suite from src/trick.rs: the suite of the leading card. -/
def Trick.get_suite (t : Trick) : Option Suite :=
  (t.cards.get t.start_player).map (fun c => c.suite)

/-- Trick::get_card from src/trick.rs. -/
def Trick.get_card (t : Trick) (p : Player) : Option Card := t.cards.get p

/-- Trick::play_card from src/trick.rs: fails if the trick is won or it is
not the given player's turn; otherwise records the card. -/
def Trick.play_card (t : Trick) (p : Player) (c : Card) : Except String Trick :=
  match t.get_status with
  | .Won _ _ => .error "Can not play a card into a trick that is already won."
  | .Waiting expected =>
    if expected ≠ p then .error "Can not play a card when it is not your turn"
    else .ok { t with cards := t.cards.set p (some c) }

/-- Trick::get_playable_cards from src/trick.rs. -/
def Trick.get_playable_cards (t : Trick) (hand : CardSet) (is_trump_broken : Bool) : CardSet :=
  match t.get_suite with
  | some s =>
    let same_suite := CardSet.inter hand (CardSet.suite s)
    if same_suite.is_empty then hand
    else same_suite
  | none =>
    let non_spades := CardSet.inter hand (CardSet.not (CardSet.suite Suite.Spade))
    if is_trump_broken || non_spades.is_empty then hand
    else non_spades

/-- Score from src/scoring/score.rs: a signed tens component and an extras
counter. -/
structure Score where
  tens : Int
  extras : Nat
deriving DecidableEq, Repr

/-- The Default impl for Score. -/
def Score.default : Score := ⟨0, 0⟩

/-- Score::add_tens from src/scoring/score.rs. -/
def Score.add_tens (s : Score) (n : Nat) : Score := { s with tens := s.tens + n }

/-- Score::sub_tens from src/scoring/score.rs. -/
def Score.sub_tens (s : Score) (n : Nat) : Score := { s with tens := s.tens - n }

/-- The while loop of Score::add_extras from src/scoring/score.rs, written
with structural fuel: while extras is at least ten, subtract ten tens and
ten extras.  A fuel of extras is always enough since every iteration lowers
extras by ten. -/
def Score.carry : Nat → Score → Score
  | 0, s => s
  | fuel + 1, s =>
    if s.extras ≥ 10 then Score.carry fuel { tens := s.tens - 10, extras := s.extras - 10 }
    else s

/-- Score::add_extras from src/scoring/score.rs: add the extras, then run the
carry loop. -/
def Score.add_extras (s : Score) (n : Nat) : Score :=
  Score.carry (s.extras + n) { s with extras := s.extras + n }

/-- Score::new from src/scoring/score.rs. -/
def Score.new (num_tens : Int) (num_extras : Nat) : Score :=
  Score.add_extras ⟨num_tens, 0⟩ num_extras

/-- Score::to_display_int from src/scoring/score.rs. -/
def Score.to_display_int (s : Score) : Int :=
  s.tens * 10 + (if s.tens < 0 then -(s.extras : Int) else (s.extras : Int))

/-- The AddAssign impl for Score from src/scoring/score.rs: add the tens,
then add the extras through add_extras. -/
def Score.addScore (a b : Score) : Score :=
  Score.add_extras ⟨a.tens + b.tens, a.extras⟩ b.extras

/-- Bid from src/scoring/bid.rs. -/
inductive Bid
  | BlindNil
  | Nil
  | Take (n : Nat)
deriving DecidableEq, Repr

/-- bid_util::is_any_nil from src/scoring/bid_util.rs. -/
def is_any_nil : Bid → Bool
  | .BlindNil => true
  | .Nil => true
  | .Take _ => false

/-- bid_util::nil_bonus from src/scoring/bid_util.rs. -/
def nil_bonus : Bid → Nat
  | .BlindNil => 20
  | .Nil => 10
  | .Take _ => 0

/-- bid_util::num_tricks from src/scoring/bid_util.rs. -/
def num_tricks : Bid → Nat
  | .Take count => count
  | _ => 0

/-- bid_util::num_team_tricks from src/scoring/bid_util.rs: the four-trick
minimum team bid. -/
def num_team_tricks (b1 b2 : Bid) : Nat := max 4 (num_tricks b1 + num_tricks b2)

/-- bid_util::high_trick_bonus from src/scoring/bid_util.rs. -/
def high_trick_bonus (b1 b2 : Bid) : Nat :=
  if num_tricks b1 + num_tricks b2 ≥ 10 then 10 else 0

/-- scoring::get_bid_value from src/scoring/mod.rs. -/
def get_bid_value (b1 b2 : Bid) : Nat :=
  num_team_tricks b1 b2 + nil_bonus b1 + nil_bonus b2 + high_trick_bonus b1 b2

/-- Bid::get_compatibility_error from src/scoring/bid.rs. -/
def Bid.get_compatibility_error (b : Bid) (teammate_bid : Option Bid) : Option String :=
  if (match teammate_bid with
      | some tb => is_any_nil tb && is_any_nil b
      | none => false) then
    some "Both players in team can not bid nil or blind nil."
  else
    match b with
    | .Take tricks_claimed =>
      let team_tricks_claimed := tricks_claimed +
        (match teammate_bid with
         | some (.Take count) => count
         | _ => 0)
      if team_tricks_claimed > 13 then
        some "Can not bid more than 13 tricks as a team."
      else none
    | _ => none

/-- TeamRoundResult from src/scoring/team_round_result.rs: the two bids and
the two per-player trick counts of a partnership for one round. -/
structure TeamRoundResult where
  bids : Bid × Bid
  tricks_taken : Nat × Nat
deriving DecidableEq, Repr

/-- TeamRoundResult::create_pair from src/scoring/team_round_result.rs. -/
def TeamRoundResult.create_pair (bids : PArray Bid) (tricks_taken : PArray Nat) :
    TeamRoundResult × TeamRoundResult :=
  (⟨(bids.get .One, bids.get .Three), (tricks_taken.get .One, tricks_taken.get .Three)⟩,
   ⟨(bids.get .Two, bids.get .Four), (tricks_taken.get .Two, tricks_taken.get .Four)⟩)

/-- TeamRoundResult::get_score from src/scoring/team_round_result.rs. -/
def TeamRoundResult.get_score (r : TeamRoundResult) : Score :=
  let tricks_taken := r.tricks_taken.1 + r.tricks_taken.2
  let tricks_required := num_team_tricks r.bids.1 r.bids.2
  let failed := decide (tricks_taken < tricks_required) ||
    (is_any_nil r.bids.1 && decide (r.tricks_taken.1 ≠ 0)) ||
    (is_any_nil r.bids.2 && decide (r.tricks_taken.2 ≠ 0))
  let value := get_bid_value r.bids.1 r.bids.2
  let score := if failed then Score.default.sub_tens value else Score.default.add_tens value
  if tricks_taken > tricks_required then score.add_extras (tricks_taken - tricks_required)
  else score

/-- scoring::get_winning_team_index from src/scoring/mod.rs. -/
def get_winning_team_index (scores : Score × Score) : Option Nat :=
  if scores.1.tens ≥ 50 ∧ scores.1.tens > scores.2.tens then some 0
  else if scores.2.tens ≥ 50 ∧ scores.2.tens > scores.1.tens then some 1
  else if scores.1.tens - scores.2.tens ≥ 50 then some 0
  else if scores.2.tens - scores.1.tens ≥ 50 then some 1
  else none

/-- game::Status from src/game/status.rs. -/
inductive GameStatus
  | WaitingForBid (p : Player)
  | WaitingForNilConfirmation (p : Player)
  | WaitingForPlay (p : Player)
  | GameOver
deriving DecidableEq, Repr

/-- PublicState from src/game/public_state.rs. -/
structure PublicState where
  scores : Score × Score
  round_results : List (TeamRoundResult × TeamRoundResult)
  dealer : Player
  seen_cards : PArray Bool
  trump_broken : Bool
  pending_nil_player : Option Player
  nil_rejected : PArray Bool
  bids : PArray (Option Bid)
  tricks_taken : PArray Nat
  trick : Trick
deriving DecidableEq, Repr

/-- The Default impl for PublicState from src/game/public_state.rs. -/
def PublicState.default : PublicState where
  scores := (Score.default, Score.default)
  round_results := []
  dealer := .One
  seen_cards := PArray.from_value false
  trump_broken := false
  pending_nil_player := none
  nil_rejected := PArray.from_value false
  bids := PArray.from_value none
  tricks_taken := PArray.from_value 0
  trick := Trick.new .Two

/-- PublicState::get_status from src/game/public_state.rs.  The source
panics when every bid is present, no nil is pending, no team has won, and
the live trick is already won; that panic branch is modelled as none. -/
def PublicState.get_status (s : PublicState) : Option GameStatus :=
  if (get_winning_team_index s.scores).isSome then some .GameOver
  else
    match s.pending_nil_player with
    | some bidding_nil => some (.WaitingForNilConfirmation bidding_nil.teammate)
    | none =>
      match s.dealer.next.seq.find? (fun p => (s.bids.get p).isNone) with
      | some p => some (.WaitingForBid p)
      | none =>
        match s.trick.get_status with
        | .Waiting p => some (.WaitingForPlay p)
        | .Won _ _ => none

/-- PublicState::get_bids from src/game/public_state.rs: every bid, or an
error naming the first player without one. -/
def PublicState.get_bids (s : PublicState) : Except String (PArray Bid) :=
  match s.bids.get .One with
  | none => .error "Internal error, no bid for player Player::One"
  | some b1 =>
    match s.bids.get .Two with
    | none => .error "Internal error, no bid for player Player::Two"
    | some b2 =>
      match s.bids.get .Three with
      | none => .error "Internal error, no bid for player Player::Three"
      | some b3 =>
        match s.bids.get .Four with
        | none => .error "Internal error, no bid for player Player::Four"
        | some b4 => .ok ⟨b1, b2, b3, b4⟩

/-- PublicState::after_card_played from src/game/public_state.rs.  The state
is threaded exactly as the source mutates it, so an error return carries
whatever mutations already happened. -/
def PublicState.after_card_played (s : PublicState) : (Except String Unit) × PublicState :=
  match s.trick.get_status with
  | .Waiting _ => (.ok (), s)
  | .Won winning_player winning_card =>
    let s3 : PublicState := { s with
      tricks_taken := s.tricks_taken.set winning_player (s.tricks_taken.get winning_player + 1)
      trump_broken := if winning_card.suite = Suite.Spade then true else s.trump_broken
      trick := Trick.new winning_player }
    if s3.tricks_taken.sum = 13 then
      match s3.get_bids with
      | .error e => (.error e, s3)
      | .ok bids =>
        let results := TeamRoundResult.create_pair bids s3.tricks_taken
        (.ok (), { s3 with
          round_results := s3.round_results ++ [results]
          scores := (s3.scores.1.addScore results.1.get_score,
                     s3.scores.2.addScore results.2.get_score)
          dealer := s3.dealer.next
          seen_cards := PArray.from_value false
          trump_broken := false
          nil_rejected := PArray.from_value false
          bids := PArray.from_value none
          tricks_taken := PArray.from_value 0
          trick := Trick.new s3.dealer.next.next })
    else (.ok (), s3)

/-- PublicState::on_card_played from src/game/public_state.rs.  Returns the
result together with the state and hand after the call; none models the
panic that propagates out of get_status. -/
def PublicState.on_card_played (s : PublicState) (player : Player) (card : Card)
    (hand : CardSet) : Option ((Except String Unit) × PublicState × CardSet) :=
  if ¬ hand.contains card then
    some (.error "You can not play a card not in your hand.", s, hand)
  else
    match s.get_status with
    | none => none
    | some (.WaitingForBid _) | some (.WaitingForNilConfirmation _) =>
      some (.error "Can not play a card, bidding is not complete.", s, hand)
    | some .GameOver =>
      some (.error "Can not play a card, the game is over.", s, hand)
    | some (.WaitingForPlay _) =>
      if ¬ (s.trick.get_playable_cards hand s.trump_broken).contains card then
        some (.error "Can not play the given card.", s, hand)
      else
        match s.trick.play_card player card with
        | .error e => some (.error e, s, hand)
        | .ok t =>
          let s1 := { s with trick := t }
          let hand1 := (hand.remove card).2
          let r := s1.after_card_played
          some (r.1, r.2, hand1)

/-- PublicState::unchecked_on_card_played from src/game/public_state.rs. -/
def PublicState.unchecked_on_card_played (s : PublicState) (player : Player) (card : Card) :
    Option ((Except String Unit) × PublicState) :=
  match s.get_status with
  | none => none
  | some (.WaitingForBid _) | some (.WaitingForNilConfirmation _) =>
    some (.error "Can not play a card, bidding is not complete.", s)
  | some .GameOver =>
    some (.error "Can not play a card, the game is over.", s)
  | some (.WaitingForPlay _) =>
    match s.trick.play_card player card with
    | .error e => some (.error e, s)
    | .ok t =>
      let r := PublicState.after_card_played { s with trick := t }
      some (r.1, r.2)

/-- PublicState::on_bid from src/game/public_state.rs. -/
def PublicState.on_bid (s : PublicState) (player : Player) (bid : Bid) :
    Option ((Except String Unit) × PublicState) :=
  match s.get_status with
  | none => none
  | some st =>
    if st ≠ .WaitingForBid player then
      some (.error "It is not your turn to bid.", s)
    else if bid = .BlindNil ∧ s.seen_cards.get player then
      some (.error "Can not bid blind nil as you have seen your cards.", s)
    else
      match bid.get_compatibility_error (s.bids.get player.teammate) with
      | some bid_error => some (.error bid_error, s)
      | none =>
        if bid = .Nil then
          if s.nil_rejected.get player then
            some (.error "You can not bid nil if your partner has already rejected your nil bid this bidding round.", s)
          else
            some (.ok (), { s with pending_nil_player := some player })
        else
          some (.ok (), { s with bids := s.bids.set player (some bid) })

/-- PublicState::on_cards_seen from src/game/public_state.rs; always succeeds. -/
def PublicState.on_cards_seen (s : PublicState) (player : Player) : PublicState :=
  { s with seen_cards := s.seen_cards.set player true }

/-- PublicState::on_nil_approval from src/game/public_state.rs. -/
def PublicState.on_nil_approval (s : PublicState) (player : Player) (is_approved : Bool) :
    (Except String Unit) × PublicState :=
  match s.pending_nil_player with
  | some bidding_nil =>
    if bidding_nil.teammate = player then
      (.ok (), { s with
        bids := if is_approved then s.bids.set bidding_nil (some .Nil) else s.bids
        nil_rejected := if is_approved then s.nil_rejected else s.nil_rejected.set bidding_nil true
        pending_nil_player := none })
    else
      (.error "Can not confirm a nil bid, your teammate does not have a nil bid pending.", s)
  | none =>
    (.error "Can not confirm a nil bid, no one has a nil bid pending.", s)

/-! Helper lemmas about Score. -/

/-- Closed form of the carry loop: with enough fuel it reduces extras modulo
ten and subtracts ten tens per full group of ten extras. -/
theorem Score.carry_spec (fuel : Nat) : ∀ s : Score, s.extras ≤ fuel →
    Score.carry fuel s = ⟨s.tens - 10 * ((s.extras / 10 : Nat) : Int), s.extras % 10⟩ := by
  induction fuel with
  | zero =>
    intro s h
    obtain ⟨t, e⟩ := s
    have he : e = 0 := Nat.le_zero.mp h
    subst he
    simp [Score.carry]
  | succ n ih =>
    intro s h
    obtain ⟨t, e⟩ := s
    by_cases hx : e ≥ 10
    · rw [Score.carry, if_pos hx]
      rw [ih ⟨t - 10, e - 10⟩ (by simp at h ⊢; omega)]
      have hd : (e - 10) / 10 = e / 10 - 1 := by omega
      have hdpos : 1 ≤ e / 10 := by omega
      have hm : (e - 10) % 10 = e % 10 := by omega
      simp only [hd, hm, Score.mk.injEq, and_true]
      have : ((e / 10 - 1 : Nat) : Int) = (e / 10 : Nat) - 1 := by
        omega
      rw [this]
      ring
    · rw [Score.carry, if_neg hx]
      have h1 : e / 10 = 0 := by omega
      have h2 : e % 10 = e := by omega
      simp [h1, h2]

/-- Closed form of Score::add_extras. -/
theorem Score.add_extras_spec (s : Score) (n : Nat) :
    s.add_extras n = ⟨s.tens - 10 * (((s.extras + n) / 10 : Nat) : Int), (s.extras + n) % 10⟩ :=
  Score.carry_spec (s.extras + n) ⟨s.tens, s.extras + n⟩ (Nat.le_refl _)

/-- Claim C1 counterexample: the claim states that extras carry upward into
tens, so that Score::new(20, 13) normalizes to tens 21 and extras 3.  The
code instead subtracts ten tens per group of ten extras: Score::new(20, 13)
evaluates to tens 10, extras 3, refuting the claimed tens of 21. -/
theorem C1_counterexample : Score.new 20 13 = ⟨10, 3⟩ ∧ (Score.new 20 13).tens ≠ 21 := by
  constructor
  · rfl
  · decide

/-- Claim C1 (amended): adding extras normalizes extras into the range 0-9,
but each full group of ten extras is carried by subtracting ten from the
tens component (a sandbagging penalty), not by adding upward; in particular
Score::new(20, 13) normalizes to tens 10, extras 3. -/
theorem C1_add_extras_carry :
    (∀ (s : Score) (n : Nat),
      (s.add_extras n).extras = (s.extras + n) % 10 ∧
      (s.add_extras n).extras < 10 ∧
      (s.add_extras n).tens = s.tens - 10 * (((s.extras + n) / 10 : Nat) : Int)) ∧
    Score.new 20 13 = ⟨10, 3⟩ := by
  refine ⟨fun s n => ?_, rfl⟩
  rw [Score.add_extras_spec]
  refine ⟨rfl, ?_, rfl⟩
  simp only []
  omega

/-- Claim C7 counterexample: bid compatibility as implemented is not
symmetric on all bid pairs.  Take(14) is incompatible with a teammate Nil
(the team trick sum 14 exceeds 13), but Nil reports no incompatibility with
a teammate Take(14), since the trick-sum check only runs when the bidder
itself bids Take. -/
theorem C7_counterexample :
    ¬ (((Bid.Take 14).get_compatibility_error (some Bid.Nil) = none) ↔
       (Bid.Nil.get_compatibility_error (some (Bid.Take 14)) = none)) := by
  decide

/-- Claim C7 (amended): restricted to bids whose Take counts are at most 13
(the only bids the game ever accepts), compatibility is symmetric, and two
bids are compatible exactly when they are not both a kind of nil and the sum
of their Take counts is at most 13. -/
theorem C7_compat_symm (x y : Bid) (hx : num_tricks x ≤ 13) (hy : num_tricks y ≤ 13) :
    ((x.get_compatibility_error (some y) = none) ↔
     (y.get_compatibility_error (some x) = none)) ∧
    ((x.get_compatibility_error (some y) = none) ↔
     (¬(is_any_nil x = true ∧ is_any_nil y = true) ∧ num_tricks x + num_tricks y ≤ 13)) := by
  cases x <;> cases y <;>
    (simp_all [Bid.get_compatibility_error, is_any_nil, num_tricks]; all_goals omega)

/-- Witness for C7: Take(6) and Take(7) are compatible in both directions. -/
theorem C7_witness :
    ((Bid.Take 6).get_compatibility_error (some (Bid.Take 7)) = none) ↔
    ((Bid.Take 7).get_compatibility_error (some (Bid.Take 6)) = none) :=
  (C7_compat_symm (Bid.Take 6) (Bid.Take 7) (by decide) (by decide)).1

/-- Claim C3: the round score of a partnership is computed from the bids and
tricks taken as the spec describes: required tricks are max(4, sum of Take
counts); the bid value adds the nil bonuses and the ten-for-ten bonus; the
tens delta is minus the bid value when the round fails (too few tricks taken
or a nil bidder personally took a trick) and plus the bid value otherwise;
overtricks beyond the requirement are always added as extras. -/
theorem C3_round_score (b1 b2 : Bid) (t1 t2 : Nat) (h1 : t1 ≤ 13) (h2 : t2 ≤ 13) :
    TeamRoundResult.get_score ⟨(b1, b2), (t1, t2)⟩ =
      (let required := max 4 (num_tricks b1 + num_tricks b2)
       let value := required + nil_bonus b1 + nil_bonus b2 +
         (if num_tricks b1 + num_tricks b2 ≥ 10 then 10 else 0)
       let taken := t1 + t2
       let base : Score :=
         if taken < required ∨ (is_any_nil b1 = true ∧ 1 ≤ t1) ∨ (is_any_nil b2 = true ∧ 1 ≤ t2)
         then ⟨-(value : Int), 0⟩ else ⟨(value : Int), 0⟩
       if taken > required then base.add_extras (taken - required) else base) := by
  simp only [TeamRoundResult.get_score, get_bid_value, num_team_tricks, high_trick_bonus,
    Score.default, Score.sub_tens, Score.add_tens]
  have hfail : (decide (t1 + t2 < max 4 (num_tricks b1 + num_tricks b2)) ||
      (is_any_nil b1 && decide (t1 ≠ 0)) || (is_any_nil b2 && decide (t2 ≠ 0))) = true ↔
      (t1 + t2 < max 4 (num_tricks b1 + num_tricks b2) ∨
       (is_any_nil b1 = true ∧ 1 ≤ t1) ∨ (is_any_nil b2 = true ∧ 1 ≤ t2)) := by
    simp [Bool.or_eq_true, Bool.and_eq_true, decide_eq_true_eq]
    constructor
    · rintro ((h | ⟨ha, hb⟩) | ⟨ha, hb⟩)
      · exact Or.inl h
      · exact Or.inr (Or.inl ⟨ha, by omega⟩)
      · exact Or.inr (Or.inr ⟨ha, by omega⟩)
    · rintro (h | ⟨ha, hb⟩ | ⟨ha, hb⟩)
      · exact Or.inl (Or.inl h)
      · exact Or.inl (Or.inr ⟨ha, by omega⟩)
      · exact Or.inr ⟨ha, by omega⟩
  by_cases hf : t1 + t2 < max 4 (num_tricks b1 + num_tricks b2) ∨
      (is_any_nil b1 = true ∧ 1 ≤ t1) ∨ (is_any_nil b2 = true ∧ 1 ≤ t2)
  · rw [if_pos (hfail.mpr hf), if_pos hf]
    have hz : (0 : Int) - ((max 4 (num_tricks b1 + num_tricks b2) + nil_bonus b1 + nil_bonus b2 +
        high_trick_bonus b1 b2 : Nat) : Int) =
        -((max 4 (num_tricks b1 + num_tricks b2) + nil_bonus b1 + nil_bonus b2 +
          (if num_tricks b1 + num_tricks b2 ≥ 10 then 10 else 0) : Nat) : Int) := by
      simp [high_trick_bonus]
    split <;> simp_all [high_trick_bonus]
  · rw [if_neg fun h => hf (hfail.mp h), if_neg hf]
    split <;> simp_all [high_trick_bonus]

/-- Witness for C3, at the concrete example the claim names: bids (Take(4),
BlindNil) with tricks (4, 3) give tens -24 and extras 3. -/
theorem C3_witness :
    (TeamRoundResult.get_score ⟨(Bid.Take 4, Bid.BlindNil), (4, 3)⟩).tens = -24 ∧
    (TeamRoundResult.get_score ⟨(Bid.Take 4, Bid.BlindNil), (4, 3)⟩).extras = 3 := by
  have h := C3_round_score (Bid.Take 4) Bid.BlindNil 4 3 (by decide) (by decide)
  refine ⟨?_, ?_⟩ <;> (rw [h]; decide)

/-! Helper lemmas for CardSet and claim C5. -/

/-- For a well-formed hand (bits only below 52), intersecting with the
complement of a suite equals the set-difference operator of the source. -/
theorem CardSet.inter_not_suite (hand : CardSet) (hwf : hand.int < 2 ^ 52) (s : Suite) :
    CardSet.inter hand (CardSet.not (CardSet.suite s)) = CardSet.sub hand (CardSet.suite s) := by
  have key : hand.int &&& (CardSet.full.int &&& u64not (CardSet.suite s).int)
      = hand.int &&& u64not (CardSet.suite s).int := by
    apply Nat.eq_of_testBit_eq
    intro i
    simp only [Nat.testBit_and]
    by_cases hi : i < 52
    · have hfull : CardSet.full.int.testBit i = true := by
        show Nat.testBit ((1 <<< 52) - 1) i = true
        rw [Nat.shiftLeft_eq, one_mul, Nat.testBit_two_pow_sub_one]
        simpa using hi
      rw [hfull, Bool.true_and]
    · have hh : hand.int.testBit i = false :=
        Nat.testBit_lt_two_pow
          (lt_of_lt_of_le hwf (Nat.pow_le_pow_right (by norm_num) (by omega)))
      simp [hh]
  exact congrArg CardSet.mk key

/-- Claim C5: the legal-card filter.  With a lead suite, the playable set is
the intersection of the hand with that suite unless the intersection is
empty, in which case it is the whole hand.  Leading, the playable set is the
whole hand when trump is broken or the hand minus Spades is empty, and the
hand minus Spades otherwise. -/
theorem C5_playable_cards (t : Trick) (hand : CardSet) (broken : Bool)
    (hwf : hand.int < 2 ^ 52) :
    (∀ ls, t.get_suite = some ls →
      t.get_playable_cards hand broken =
        if (CardSet.inter hand (CardSet.suite ls)).is_empty = true then hand
        else CardSet.inter hand (CardSet.suite ls)) ∧
    (t.get_suite = none →
      t.get_playable_cards hand broken =
        if broken = true ∨ (CardSet.sub hand (CardSet.suite Suite.Spade)).is_empty = true
        then hand
        else CardSet.sub hand (CardSet.suite Suite.Spade)) := by
  constructor
  · intro ls hls
    simp only [Trick.get_playable_cards, hls]
  · intro hns
    simp only [Trick.get_playable_cards, hns]
    rw [CardSet.inter_not_suite hand hwf]
    cases broken with
    | true => simp
    | false =>
      by_cases he : (CardSet.sub hand (CardSet.suite Suite.Spade)).is_empty = true <;>
        simp [he]

/-- The concrete trick and hand used for the C5 witness: Player One led the
Heart Ace; the hand holds Heart 2, Heart King and Club Ace. -/
def c5trick : Trick := ⟨.One, ⟨some ⟨.Heart, .Ace⟩, none, none, none⟩⟩

/-- The hand used for the C5 witness. -/
def c5hand : CardSet :=
  (((((CardSet.mk 0).insert ⟨.Heart, .Number 2⟩).2.insert ⟨.Heart, .King⟩).2).insert ⟨.Club, .Ace⟩).2

/-- Witness for C5 at a concrete trick with a Heart lead. -/
theorem C5_witness :
    c5trick.get_playable_cards c5hand false =
      if (CardSet.inter c5hand (CardSet.suite Suite.Heart)).is_empty = true then c5hand
      else CardSet.inter c5hand (CardSet.suite Suite.Heart) :=
  (C5_playable_cards c5trick c5hand false (by decide)).1 Suite.Heart (by decide)

/-! Helper lemmas about PublicState statuses, used by several claims. -/

/-- Every player appears in every rotation sequence. -/
theorem Player.mem_seq (q p : Player) : q ∈ p.seq := by
  cases q <;> cases p <;> decide

/-- When the status is WaitingForPlay, the live trick is waiting on that
player, every bid is recorded, no nil confirmation is pending and no team
has won. -/
theorem status_play_cases {s : PublicState} {q : Player}
    (h : s.get_status = some (GameStatus.WaitingForPlay q)) :
    s.trick.get_status = .Waiting q ∧ (∀ p, (s.bids.get p).isSome) ∧
    s.pending_nil_player = none ∧ get_winning_team_index s.scores = none := by
  unfold PublicState.get_status at h
  by_cases hw : (get_winning_team_index s.scores).isSome
  · rw [if_pos hw] at h
    simp at h
  · rw [if_neg hw] at h
    cases hp : s.pending_nil_player with
    | some x =>
      rw [hp] at h
      simp at h
    | none =>
      rw [hp] at h
      cases hf : s.dealer.next.seq.find? (fun p => (s.bids.get p).isNone) with
      | some x =>
        rw [hf] at h
        simp at h
      | none =>
        rw [hf] at h
        cases ht : s.trick.get_status with
        | Won a b =>
          rw [ht] at h
          simp at h
        | Waiting x =>
          rw [ht] at h
          simp only [Option.some.injEq, GameStatus.WaitingForPlay.injEq] at h
          subst h
          refine ⟨rfl, ?_, rfl, ?_⟩
          · intro p
            have hmem := Player.mem_seq p s.dealer.next
            have hnone := List.find?_eq_none.mp hf p hmem
            cases hb : s.bids.get p with
            | none => exact absurd (by simp [hb]) hnone
            | some b => simp
          · cases hgw : get_winning_team_index s.scores with
            | none => rfl
            | some i => exact absurd (by simp [hgw]) hw

/-- All four bids present means get_bids succeeds. -/
theorem get_bids_ok {s : PublicState} (hb : ∀ p, (s.bids.get p).isSome) :
    ∃ bs, s.get_bids = Except.ok bs := by
  unfold PublicState.get_bids
  obtain ⟨b1, h1⟩ := Option.isSome_iff_exists.mp (hb .One)
  obtain ⟨b2, h2⟩ := Option.isSome_iff_exists.mp (hb .Two)
  obtain ⟨b3, h3⟩ := Option.isSome_iff_exists.mp (hb .Three)
  obtain ⟨b4, h4⟩ := Option.isSome_iff_exists.mp (hb .Four)
  rw [h1, h2, h3, h4]
  exact ⟨_, rfl⟩

/-- after_card_played never fails while every bid is recorded. -/
theorem after_card_played_ok {s : PublicState} (hb : ∀ p, (s.bids.get p).isSome) :
    (s.after_card_played).1 = Except.ok () := by
  unfold PublicState.after_card_played
  cases ht : s.trick.get_status with
  | Waiting x => rfl
  | Won wp wc =>
    simp only []
    obtain ⟨bs, hbs⟩ := get_bids_ok (s := { s with
      tricks_taken := s.tricks_taken.set wp (s.tricks_taken.get wp + 1)
      trump_broken := if wc.suite = Suite.Spade then true else s.trump_broken
      trick := Trick.new wp }) hb
    rw [hbs]
    split <;> rfl

/-- An on_bid call that returns an error leaves the state unchanged. -/
theorem on_bid_error_unchanged (s : PublicState) (p : Player) (b : Bid) (e : String)
    (s' : PublicState) (h : s.on_bid p b = some (.error e, s')) : s' = s := by
  unfold PublicState.on_bid at h
  split at h
  · simp at h
  · split at h
    · simp at h
      exact h.2.symm
    · split at h
      · simp at h
        exact h.2.symm
      · split at h
        · simp at h
          exact h.2.symm
        · split at h
          · split at h
            · simp at h
              exact h.2.symm
            · simp at h
          · simp at h

/-- An on_nil_approval call that returns an error leaves the state unchanged. -/
theorem on_nil_approval_error_unchanged (s : PublicState) (p : Player) (a : Bool)
    (e : String) (s' : PublicState)
    (h : s.on_nil_approval p a = (.error e, s')) : s' = s := by
  unfold PublicState.on_nil_approval at h
  split at h
  · split at h
    · simp at h
    · simp at h
      exact h.2.symm
  · simp at h
    exact h.2.symm

/-- An on_card_played call that returns an error leaves both the state and
the hand unchanged. -/
theorem on_card_played_error_unchanged (s : PublicState) (p : Player) (c : Card)
    (hand : CardSet) (e : String) (s' : PublicState) (h' : CardSet)
    (h : s.on_card_played p c hand = some (.error e, s', h')) : s' = s ∧ h' = hand := by
  unfold PublicState.on_card_played at h
  split at h
  · simp at h
    exact ⟨h.2.1.symm, h.2.2.symm⟩
  · split at h
    · simp at h
    · simp at h
      exact ⟨h.2.1.symm, h.2.2.symm⟩
    · simp at h
      exact ⟨h.2.1.symm, h.2.2.symm⟩
    · simp at h
      exact ⟨h.2.1.symm, h.2.2.symm⟩
    · rename_i hst
      split at h
      · simp at h
        exact ⟨h.2.1.symm, h.2.2.symm⟩
      · split at h
        · simp at h
          exact ⟨h.2.1.symm, h.2.2.symm⟩
        · rename_i t hplay
          have hb := (status_play_cases hst).2.1
          have hok := after_card_played_ok (s := { s with trick := t }) hb
          simp [hok] at h

/-- An unchecked_on_card_played call that returns an error leaves the state
unchanged. -/
theorem unchecked_error_unchanged (s : PublicState) (p : Player) (c : Card)
    (e : String) (s' : PublicState)
    (h : s.unchecked_on_card_played p c = some (.error e, s')) : s' = s := by
  unfold PublicState.unchecked_on_card_played at h
  split at h
  · simp at h
  · simp at h
    exact h.2.symm
  · simp at h
    exact h.2.symm
  · simp at h
    exact h.2.symm
  · rename_i hst
    split at h
    · simp at h
      exact h.2.symm
    · rename_i t hplay
      have hb := (status_play_cases hst).2.1
      have hok := after_card_played_ok (s := { s with trick := t }) hb
      simp [hok] at h

/-- Claim C4: whenever a mutating operation (on_bid, on_nil_approval,
on_card_played, unchecked_on_card_played) returns an error, the PublicState
after the call equals the PublicState before it, and for on_card_played the
hand is also unchanged. -/
theorem C4_error_no_mutation :
    (∀ (s : PublicState) (p : Player) (b : Bid) (e : String) (s' : PublicState),
      s.on_bid p b = some (.error e, s') → s' = s) ∧
    (∀ (s : PublicState) (p : Player) (a : Bool) (e : String) (s' : PublicState),
      s.on_nil_approval p a = (.error e, s') → s' = s) ∧
    (∀ (s : PublicState) (p : Player) (c : Card) (hand : CardSet) (e : String)
       (s' : PublicState) (h' : CardSet),
      s.on_card_played p c hand = some (.error e, s', h') → s' = s ∧ h' = hand) ∧
    (∀ (s : PublicState) (p : Player) (c : Card) (e : String) (s' : PublicState),
      s.unchecked_on_card_played p c = some (.error e, s') → s' = s) :=
  ⟨on_bid_error_unchanged, on_nil_approval_error_unchanged,
   on_card_played_error_unchanged, unchecked_error_unchanged⟩

/-- Witness for C4: in the initial state it is player Two's turn to bid, so
a bid by player Three errors out and the state is returned unchanged. -/
theorem C4_witness :
    PublicState.on_bid PublicState.default Player.Three (Bid.Take 2) =
      some (Except.error "It is not your turn to bid.", PublicState.default) ∧
    PublicState.default = PublicState.default := by
  refine ⟨rfl, ?_⟩
  exact C4_error_no_mutation.1 PublicState.default Player.Three (Bid.Take 2)
    "It is not your turn to bid." PublicState.default rfl

/-! Helper lemmas for claim C8 (nil rejection). -/

/-- Reading one entry of a written player array. -/
theorem PArray.get_set {A : Type} (a : PArray A) (i j : Player) (v : A) :
    (a.set i v).get j = if j = i then v else a.get j := by
  cases i <;> cases j <;> rfl

/-- Rejecting a pending nil clears the pending slot, sets the nil-rejected
flag for the bidder, and records no bid. -/
theorem nil_reject_effect (s : PublicState) (p : Player) (hp : s.pending_nil_player = some p) :
    s.on_nil_approval p.teammate false =
      (.ok (), { s with
        nil_rejected := s.nil_rejected.set p true
        pending_nil_player := none }) := by
  unfold PublicState.on_nil_approval
  simp [hp]

/-- A Nil bid by a player whose nil-rejected flag is set always fails and
leaves the state unchanged. -/
theorem nil_blocked (t : PublicState) (p : Player) (hrej : t.nil_rejected.get p = true)
    (r : Except String Unit) (t' : PublicState) (h : t.on_bid p .Nil = some (r, t')) :
    (∃ e, r = Except.error e) ∧ t' = t := by
  unfold PublicState.on_bid at h
  split at h
  · simp at h
  · split at h
    · simp at h
      exact ⟨⟨_, h.1.symm⟩, h.2.symm⟩
    · split at h
      · simp at h
        exact ⟨⟨_, h.1.symm⟩, h.2.symm⟩
      · split at h
        · simp at h
          exact ⟨⟨_, h.1.symm⟩, h.2.symm⟩
        · rw [if_pos rfl] at h
          simp at h
          exact ⟨⟨_, h.1.symm⟩, h.2.symm⟩

/-- A BlindNil bid succeeds for a player whose turn it is, who has not seen
their cards and whose bid is compatible with the partner's recorded bid; the
nil-rejected flag is never consulted for BlindNil. -/
theorem blindnil_ok (t : PublicState) (p : Player)
    (hst : t.get_status = some (.WaitingForBid p))
    (hseen : t.seen_cards.get p = false)
    (hcompat : Bid.BlindNil.get_compatibility_error (t.bids.get p.teammate) = none) :
    t.on_bid p .BlindNil =
      some (.ok (), { t with bids := t.bids.set p (some .BlindNil) }) := by
  unfold PublicState.on_bid
  simp [hst, hseen, hcompat]

/-- after_card_played either leaves the nil-rejected flags unchanged or
grows the round history (the round boundary). -/
theorem after_card_played_nil_rejected (s : PublicState) :
    ((s.after_card_played).2).nil_rejected = s.nil_rejected ∨
    ((s.after_card_played).2).round_results ≠ s.round_results := by
  unfold PublicState.after_card_played
  split
  · exact Or.inl rfl
  · dsimp only
    split
    all_goals try split
    all_goals try split
    all_goals first
      | exact Or.inl rfl
      | (refine Or.inr ?_
         intro hh
         have hl := congrArg List.length hh
         simp at hl)

/-- on_bid never changes the nil-rejected flags. -/
theorem on_bid_nil_rejected (t : PublicState) (q : Player) (b : Bid)
    (r : Except String Unit) (t' : PublicState) (h : t.on_bid q b = some (r, t')) :
    t'.nil_rejected = t.nil_rejected := by
  unfold PublicState.on_bid at h
  split at h
  · simp at h
  · split at h
    · simp at h
      rw [← h.2]
    · split at h
      · simp at h
        rw [← h.2]
      · split at h
        · simp at h
          rw [← h.2]
        · split at h
          · split at h
            · simp at h
              rw [← h.2]
            · simp at h
              rw [← h.2]
          · simp at h
            rw [← h.2]

/-- on_nil_approval can only set nil-rejected flags, never clear them. -/
theorem on_nil_approval_nil_rejected (t : PublicState) (q : Player) (a : Bool)
    (r : Except String Unit) (t' : PublicState) (pl : Player)
    (h : t.on_nil_approval q a = (r, t')) (hpl : t.nil_rejected.get pl = true) :
    t'.nil_rejected.get pl = true := by
  unfold PublicState.on_nil_approval at h
  split at h
  · split at h
    · simp at h
      rw [← h.2]
      cases a <;> simp [PArray.get_set, hpl]
    · simp at h
      rw [← h.2]
      exact hpl
  · simp at h
    rw [← h.2]
    exact hpl

/-- on_card_played preserves the nil-rejected flags while the round history
is unchanged. -/
theorem on_card_played_nil_rejected (t : PublicState) (q : Player) (c : Card)
    (hand : CardSet) (r : Except String Unit) (t' : PublicState) (h2 : CardSet)
    (h : t.on_card_played q c hand = some (r, t', h2))
    (hsame : t'.round_results = t.round_results) :
    t'.nil_rejected = t.nil_rejected := by
  unfold PublicState.on_card_played at h
  split at h
  · simp at h
    rw [← h.2.1]
  · split at h
    · simp at h
    · simp at h
      rw [← h.2.1]
    · simp at h
      rw [← h.2.1]
    · simp at h
      rw [← h.2.1]
    · split at h
      · simp at h
        rw [← h.2.1]
      · split at h
        · simp at h
          rw [← h.2.1]
        · rename_i tt hplay
          simp at h
          rcases after_card_played_nil_rejected { t with trick := tt } with hres | hres
          · rw [← h.2.1]
            exact hres
          · exfalso
            apply hres
            rw [h.2.1]
            exact hsame

/-- unchecked_on_card_played preserves the nil-rejected flags while the
round history is unchanged. -/
theorem unchecked_nil_rejected (t : PublicState) (q : Player) (c : Card)
    (r : Except String Unit) (t' : PublicState)
    (h : t.unchecked_on_card_played q c = some (r, t'))
    (hsame : t'.round_results = t.round_results) :
    t'.nil_rejected = t.nil_rejected := by
  unfold PublicState.unchecked_on_card_played at h
  split at h
  · simp at h
  · simp at h
    rw [← h.2]
  · simp at h
    rw [← h.2]
  · simp at h
    rw [← h.2]
  · split at h
    · simp at h
      rw [← h.2]
    · rename_i tt hplay
      simp at h
      have hsnd : ((PublicState.after_card_played { t with trick := tt }).2) = t' := by
        rw [h]
      rcases after_card_played_nil_rejected { t with trick := tt } with hres | hres
      · rw [← hsnd]
        exact hres
      · exfalso
        apply hres
        rw [hsnd]
        exact hsame

/-- Claim C8: rejecting a pending Nil records no bid for the bidder (they
must bid again), sets their nil-rejected flag; any on_bid of Nil by a player
whose flag is set fails without mutating state; the flag persists through
every operation that does not complete the round; and a BlindNil bid still
succeeds when the player has not seen their cards and the bid is compatible
with the partner's bid. -/
theorem C8_nil_rejection :
    (∀ (s : PublicState) (p : Player), s.pending_nil_player = some p →
      s.on_nil_approval p.teammate false =
        (.ok (), { s with
          nil_rejected := s.nil_rejected.set p true
          pending_nil_player := none })) ∧
    (∀ (t : PublicState) (p : Player) (r : Except String Unit) (t' : PublicState),
      t.nil_rejected.get p = true → t.on_bid p .Nil = some (r, t') →
      (∃ e, r = Except.error e) ∧ t' = t) ∧
    (∀ (t : PublicState) (p : Player),
      t.get_status = some (.WaitingForBid p) → t.seen_cards.get p = false →
      Bid.BlindNil.get_compatibility_error (t.bids.get p.teammate) = none →
      t.on_bid p .BlindNil =
        some (.ok (), { t with bids := t.bids.set p (some .BlindNil) })) ∧
    (∀ (t : PublicState) (q pl : Player),
      (t.on_cards_seen q).nil_rejected.get pl = t.nil_rejected.get pl) ∧
    (∀ (t : PublicState) (q : Player) (b : Bid) (r : Except String Unit) (t' : PublicState),
      t.on_bid q b = some (r, t') → t'.nil_rejected = t.nil_rejected) ∧
    (∀ (t : PublicState) (q : Player) (a : Bool) (r : Except String Unit)
       (t' : PublicState) (pl : Player),
      t.on_nil_approval q a = (r, t') → t.nil_rejected.get pl = true →
      t'.nil_rejected.get pl = true) ∧
    (∀ (t : PublicState) (q : Player) (c : Card) (hand : CardSet)
       (r : Except String Unit) (t' : PublicState) (h2 : CardSet),
      t.on_card_played q c hand = some (r, t', h2) →
      t'.round_results = t.round_results → t'.nil_rejected = t.nil_rejected) ∧
    (∀ (t : PublicState) (q : Player) (c : Card) (r : Except String Unit) (t' : PublicState),
      t.unchecked_on_card_played q c = some (r, t') →
      t'.round_results = t.round_results → t'.nil_rejected = t.nil_rejected) :=
  ⟨nil_reject_effect,
   fun t p r t' hrej h => nil_blocked t p hrej r t' h,
   blindnil_ok,
   fun _ _ _ => rfl,
   on_bid_nil_rejected,
   on_nil_approval_nil_rejected,
   on_card_played_nil_rejected,
   unchecked_nil_rejected⟩

/-- The state after player Two bids Nil from the initial state: the nil is
pending partner confirmation. -/
def c8s1 : PublicState := { PublicState.default with pending_nil_player := some Player.Two }

/-- The state after player Four rejects the pending nil. -/
def c8s2 : PublicState := { c8s1 with
  nil_rejected := c8s1.nil_rejected.set Player.Two true
  pending_nil_player := none }

/-- Witness for C8: rejection by the partner produces the flagged state, a
renewed Nil bid by player Two fails with the state unchanged, and a BlindNil
bid by player Two still succeeds. -/
theorem C8_witness :
    PublicState.on_nil_approval c8s1 Player.Two.teammate false = (Except.ok (), c8s2) ∧
    ((∃ e, (Except.error "You can not bid nil if your partner has already rejected your nil bid this bidding round." : Except String Unit) = Except.error e) ∧ c8s2 = c8s2) ∧
    c8s2.on_bid Player.Two Bid.BlindNil =
      some (Except.ok (), { c8s2 with bids := c8s2.bids.set Player.Two (some Bid.BlindNil) }) := by
  refine ⟨?_, ?_, ?_⟩
  · exact C8_nil_rejection.1 c8s1 Player.Two rfl
  · exact C8_nil_rejection.2.1 c8s2 Player.Two _ c8s2 rfl rfl
  · exact C8_nil_rejection.2.2.1 c8s2 Player.Two rfl rfl rfl

/-! Claim C9: the round boundary. -/

/-- Incrementing one player's trick counter raises the total by one. -/
theorem PArray.sum_set_succ (a : PArray Nat) (w : Player) :
    (a.set w (a.get w + 1)).sum = a.sum + 1 := by
  cases w <;> (simp [PArray.set, PArray.get, PArray.sum]; omega)

/-- Claim C9: a successful play that completes the 13th trick appends
exactly one entry to the round history, adds each partnership's round score
to its cumulative score, advances the dealer one seat, resets every
round-scoped field, and starts a fresh trick led by the new dealer's next
player. -/
theorem C9_round_boundary (s : PublicState) (p : Player) (c : Card) (w : Player) (wc : Card)
    (hst : s.get_status = some (.WaitingForPlay p))
    (hwon : Trick.get_status ⟨s.trick.start_player, s.trick.cards.set p (some c)⟩ = .Won w wc)
    (hsum : s.tricks_taken.sum = 12) :
    ∃ (s' : PublicState) (r1 r2 : TeamRoundResult),
      s.unchecked_on_card_played p c = some (.ok (), s') ∧
      s'.round_results = s.round_results ++ [(r1, r2)] ∧
      s'.round_results.length = s.round_results.length + 1 ∧
      s'.scores = (s.scores.1.addScore r1.get_score, s.scores.2.addScore r2.get_score) ∧
      s'.dealer = s.dealer.next ∧
      s'.seen_cards = PArray.from_value false ∧
      s'.trump_broken = false ∧
      s'.nil_rejected = PArray.from_value false ∧
      s'.bids = PArray.from_value none ∧
      s'.tricks_taken = PArray.from_value 0 ∧
      s'.trick = Trick.new s.dealer.next.next := by
  obtain ⟨htr, hbids, hpend, hwin⟩ := status_play_cases hst
  have hplay : s.trick.play_card p c =
      .ok ⟨s.trick.start_player, s.trick.cards.set p (some c)⟩ := by
    unfold Trick.play_card
    simp [htr]
  obtain ⟨bs, hbs⟩ := get_bids_ok (s := { s with
      tricks_taken := s.tricks_taken.set w (s.tricks_taken.get w + 1)
      trump_broken := if wc.suite = Suite.Spade then true else s.trump_broken
      trick := Trick.new w }) hbids
  have hafter : PublicState.after_card_played
      { s with trick := ⟨s.trick.start_player, s.trick.cards.set p (some c)⟩ } =
      (.ok (), { s with
        round_results := s.round_results ++
          [TeamRoundResult.create_pair bs (s.tricks_taken.set w (s.tricks_taken.get w + 1))]
        scores := (s.scores.1.addScore (TeamRoundResult.create_pair bs
                     (s.tricks_taken.set w (s.tricks_taken.get w + 1))).1.get_score,
                   s.scores.2.addScore (TeamRoundResult.create_pair bs
                     (s.tricks_taken.set w (s.tricks_taken.get w + 1))).2.get_score)
        dealer := s.dealer.next
        seen_cards := PArray.from_value false
        trump_broken := false
        nil_rejected := PArray.from_value false
        bids := PArray.from_value none
        tricks_taken := PArray.from_value 0
        trick := Trick.new s.dealer.next.next }) := by
    unfold PublicState.after_card_played
    dsimp only
    simp only [hwon]
    simp only [PArray.sum_set_succ, hsum, hbs]
    simp
  unfold PublicState.unchecked_on_card_played
  simp only [hst, hplay, hafter]
  refine ⟨_, _, _, rfl, rfl, by simp, rfl, rfl, rfl, rfl, rfl, rfl, rfl, rfl⟩

/-- A concrete state one play away from the end of a round: all bids are
Take(3), twelve tricks are taken, and the live trick waits on player One. -/
def c9state : PublicState where
  scores := (Score.default, Score.default)
  round_results := []
  dealer := .One
  seen_cards := PArray.from_value true
  trump_broken := false
  pending_nil_player := none
  nil_rejected := PArray.from_value false
  bids := ⟨some (Bid.Take 3), some (Bid.Take 3), some (Bid.Take 3), some (Bid.Take 3)⟩
  tricks_taken := ⟨0, 4, 4, 4⟩
  trick := ⟨.Two, ⟨none, some ⟨.Diamond, .Number 5⟩, some ⟨.Diamond, .Ace⟩,
    some ⟨.Diamond, .Number 4⟩⟩⟩

/-- Witness for C9 at the concrete state: player One completes the 13th
trick, which player Three wins with the Diamond Ace. -/
theorem C9_witness :
    ∃ (s' : PublicState) (r1 r2 : TeamRoundResult),
      c9state.unchecked_on_card_played Player.One ⟨.Diamond, .Number 2⟩ =
        some (.ok (), s') ∧
      s'.round_results = c9state.round_results ++ [(r1, r2)] ∧
      s'.round_results.length = c9state.round_results.length + 1 ∧
      s'.scores = (c9state.scores.1.addScore r1.get_score,
                   c9state.scores.2.addScore r2.get_score) ∧
      s'.dealer = c9state.dealer.next ∧
      s'.seen_cards = PArray.from_value false ∧
      s'.trump_broken = false ∧
      s'.nil_rejected = PArray.from_value false ∧
      s'.bids = PArray.from_value none ∧
      s'.tricks_taken = PArray.from_value 0 ∧
      s'.trick = Trick.new c9state.dealer.next.next :=
  C9_round_boundary c9state Player.One ⟨.Diamond, .Number 2⟩ Player.Three ⟨.Diamond, .Ace⟩
    (by decide) (by decide) (by decide)

/-! The trick-winner analysis, used by claims C6 and C2. -/

/-- The value comparison never relates a value strictly below itself. -/
theorem Value.ltv_irrefl (v : Value) : v.ltv v = false := by
  cases v <;> simp [Value.ltv]

/-- Transport of the maximum through one strict step: if x is not above a
and a is strictly below c, then x is not above c. -/
theorem Value.ltv_le_of_lt (a x c : Value) (h1 : a.ltv x = false) (h2 : a.ltv c = true) :
    c.ltv x = false := by
  cases a <;> cases x <;> cases c <;>
    (simp_all [Value.ltv, decide_eq_false_iff_not]; all_goals omega)

/-- Whether any card in the list is a Spade. -/
def hasSpadeL (l : List Card) : Bool := l.any (fun x => decide (x.suite = Suite.Spade))

/-- The specification of the running best of the winner scan: the highest
Spade seen so far when any Spade has been played, otherwise the highest card
of the lead suite. -/
def IsBest (lead : Suite) (played : List Card) (b : Card) : Prop :=
  if hasSpadeL played = true then
    b.suite = Suite.Spade ∧ ∀ x ∈ played, x.suite = Suite.Spade → b.value.ltv x.value = false
  else
    b.suite = lead ∧ ∀ x ∈ played, x.suite = lead → b.value.ltv x.value = false

/-- The lead card is the best of the one-card prefix. -/
theorem isBest_single (c : Card) : IsBest c.suite [c] c := by
  unfold IsBest hasSpadeL
  by_cases hs : c.suite = Suite.Spade
  · simp [hs, Value.ltv_irrefl]
  · simp [hs, Value.ltv_irrefl]

/-- One step of the winner scan preserves the running-best specification. -/
theorem winnerStep_isBest (lead : Suite) (played : List Card) (b : Player × Card)
    (p : Player) (c : Card) (hb : IsBest lead played b.2) :
    IsBest lead (played ++ [c]) (winnerStep b (p, c)).2 := by
  have happ : hasSpadeL (played ++ [c]) = (hasSpadeL played || decide (c.suite = Suite.Spade)) := by
    simp [hasSpadeL]
  unfold IsBest at hb ⊢
  unfold winnerStep
  by_cases hs : hasSpadeL played = true
  · rw [if_pos hs] at hb
    rw [happ, hs]
    rw [if_pos (by simp)]
    obtain ⟨hbs, hbm⟩ := hb
    by_cases h1 : c.suite = b.2.suite
    · dsimp only
      rw [if_pos h1]
      by_cases hlt : b.2.value.ltv c.value = true
      · rw [if_pos hlt]
        refine ⟨h1.trans hbs, ?_⟩
        intro x hx hxs
        rcases List.mem_append.mp hx with hx | hx
        · exact Value.ltv_le_of_lt _ _ _ (hbm x hx hxs) hlt
        · simp at hx
          subst hx
          exact Value.ltv_irrefl _
      · rw [if_neg hlt]
        refine ⟨hbs, ?_⟩
        intro x hx hxs
        rcases List.mem_append.mp hx with hx | hx
        · exact hbm x hx hxs
        · simp at hx
          subst hx
          simpa using hlt
    · dsimp only
      rw [if_neg h1]
      by_cases h2 : c.suite = Suite.Spade
      · exact absurd (h2.trans hbs.symm) h1
      · rw [if_neg h2]
        refine ⟨hbs, ?_⟩
        intro x hx hxs
        rcases List.mem_append.mp hx with hx | hx
        · exact hbm x hx hxs
        · simp at hx
          subst hx
          exact absurd hxs h2
  · rw [if_neg hs] at hb
    obtain ⟨hbl, hbm⟩ := hb
    have hsf : hasSpadeL played = false := by simpa using hs
    have hnos : ∀ x ∈ played, ¬ x.suite = Suite.Spade := by
      simpa [hasSpadeL, List.any_eq_true] using hsf
    rw [happ, hsf, Bool.false_or]
    by_cases h1 : c.suite = b.2.suite
    · dsimp only
      rw [if_pos h1]
      by_cases h2 : c.suite = Suite.Spade
      · rw [if_pos (by simp [h2])]
        by_cases hlt : b.2.value.ltv c.value = true
        · rw [if_pos hlt]
          refine ⟨h2, ?_⟩
          intro x hx hxs
          rcases List.mem_append.mp hx with hx | hx
          · exact absurd hxs (hnos x hx)
          · simp at hx
            subst hx
            exact Value.ltv_irrefl _
        · rw [if_neg hlt]
          refine ⟨h1.symm.trans h2, ?_⟩
          intro x hx hxs
          rcases List.mem_append.mp hx with hx | hx
          · exact absurd hxs (hnos x hx)
          · simp at hx
            subst hx
            simpa using hlt
      · rw [if_neg (by simp [h2])]
        by_cases hlt : b.2.value.ltv c.value = true
        · rw [if_pos hlt]
          refine ⟨h1.trans hbl, ?_⟩
          intro x hx hxl
          rcases List.mem_append.mp hx with hx | hx
          · exact Value.ltv_le_of_lt _ _ _ (hbm x hx hxl) hlt
          · simp at hx
            subst hx
            exact Value.ltv_irrefl _
        · rw [if_neg hlt]
          refine ⟨hbl, ?_⟩
          intro x hx hxl
          rcases List.mem_append.mp hx with hx | hx
          · exact hbm x hx hxl
          · simp at hx
            subst hx
            simpa using hlt
    · dsimp only
      rw [if_neg h1]
      by_cases h2 : c.suite = Suite.Spade
      · rw [if_pos h2, if_pos (by simp [h2])]
        refine ⟨h2, ?_⟩
        intro x hx hxs
        rcases List.mem_append.mp hx with hx | hx
        · exact absurd hxs (hnos x hx)
        · simp at hx
          subst hx
          exact Value.ltv_irrefl _
      · rw [if_neg h2, if_neg (by simp [h2])]
        refine ⟨hbl, ?_⟩
        intro x hx hxl
        rcases List.mem_append.mp hx with hx | hx
        · exact hbm x hx hxl
        · simp at hx
          subst hx
          exact absurd (hxl.trans hbl.symm) h1

/-- One scan step keeps either the old best or the new play. -/
theorem winnerStep_cases (b pc : Player × Card) :
    winnerStep b pc = b ∨ winnerStep b pc = pc := by
  unfold winnerStep
  split
  · split
    · exact Or.inr rfl
    · exact Or.inl rfl
  · split
    · exact Or.inr rfl
    · exact Or.inl rfl

/-- The fold of the winner scan over the four plays in rotation order. -/
def trickChain (t : Trick) (c0 c1 c2 c3 : Card) : Player × Card :=
  winnerStep (winnerStep (winnerStep (t.start_player, c0) (t.start_player.next, c1))
    (t.start_player.next.next, c2)) (t.start_player.next.next.next, c3)

/-- On a full trick, get_status returns the result of the winner scan. -/
theorem trick_full_status (t : Trick) (c0 c1 c2 c3 : Card)
    (h0 : t.cards.get t.start_player = some c0)
    (h1 : t.cards.get t.start_player.next = some c1)
    (h2 : t.cards.get t.start_player.next.next = some c2)
    (h3 : t.cards.get t.start_player.next.next.next = some c3) :
    t.get_status = .Won (trickChain t c0 c1 c2 c3).1 (trickChain t c0 c1 c2 c3).2 := by
  unfold Trick.get_status trickChain
  simp only [h0, h1, h2, h3]

/-- The final best of the scan satisfies the running-best specification of
the whole trick. -/
theorem trickChain_isBest (t : Trick) (c0 c1 c2 c3 : Card) :
    IsBest c0.suite [c0, c1, c2, c3] (trickChain t c0 c1 c2 c3).2 := by
  have s1 := winnerStep_isBest c0.suite [c0] (t.start_player, c0) t.start_player.next c1
    (isBest_single c0)
  have s2 := winnerStep_isBest c0.suite [c0, c1] _ t.start_player.next.next c2 s1
  have s3 := winnerStep_isBest c0.suite [c0, c1, c2] _ t.start_player.next.next.next c3 s2
  exact s3

/-- The winner of the scan indeed played the winning card. -/
theorem trickChain_mem (t : Trick) (c0 c1 c2 c3 : Card)
    (h0 : t.cards.get t.start_player = some c0)
    (h1 : t.cards.get t.start_player.next = some c1)
    (h2 : t.cards.get t.start_player.next.next = some c2)
    (h3 : t.cards.get t.start_player.next.next.next = some c3) :
    t.cards.get (trickChain t c0 c1 c2 c3).1 = some (trickChain t c0 c1 c2 c3).2 := by
  unfold trickChain
  rcases winnerStep_cases (winnerStep (winnerStep (t.start_player, c0) (t.start_player.next, c1))
      (t.start_player.next.next, c2)) (t.start_player.next.next.next, c3) with hc | hc <;>
    rw [hc]
  · rcases winnerStep_cases (winnerStep (t.start_player, c0) (t.start_player.next, c1))
        (t.start_player.next.next, c2) with hd | hd <;> rw [hd]
    · rcases winnerStep_cases (t.start_player, c0) (t.start_player.next, c1) with he | he <;>
        rw [he]
      · exact h0
      · exact h1
    · exact h2
  · exact h3

/-- Every player is one of the four seats of any rotation. -/
theorem player_mem_four (q p : Player) :
    q = p ∨ q = p.next ∨ q = p.next.next ∨ q = p.next.next.next := by
  cases q <;> cases p <;> decide

/-- Claim C6: a trick in which all four players have played has status
Won(winner, winningCard), where the pair is the result of the running-best
scan from the leader; the winner played the winning card, and the winning
card is the highest Spade when any Spade was played, otherwise the highest
card of the lead suite. -/
theorem C6_trick_winner (t : Trick) (c0 c1 c2 c3 : Card)
    (h0 : t.cards.get t.start_player = some c0)
    (h1 : t.cards.get t.start_player.next = some c1)
    (h2 : t.cards.get t.start_player.next.next = some c2)
    (h3 : t.cards.get t.start_player.next.next.next = some c3) :
    ∃ w wc, t.get_status = .Won w wc ∧
      (w, wc) = trickChain t c0 c1 c2 c3 ∧
      t.get_card w = some wc ∧
      ((∃ q cq, t.get_card q = some cq ∧ cq.suite = Suite.Spade) →
        wc.suite = Suite.Spade ∧
        ∀ q cq, t.get_card q = some cq → cq.suite = Suite.Spade →
          wc.value.ltv cq.value = false) ∧
      ((¬ ∃ q cq, t.get_card q = some cq ∧ cq.suite = Suite.Spade) →
        t.get_suite = some c0.suite ∧ wc.suite = c0.suite ∧
        ∀ q cq, t.get_card q = some cq → cq.suite = c0.suite →
          wc.value.ltv cq.value = false) := by
  have hforward : ∀ q cq, t.get_card q = some cq → cq ∈ [c0, c1, c2, c3] := by
    intro q cq hq
    unfold Trick.get_card at hq
    rcases player_mem_four q t.start_player with hh | hh | hh | hh <;> subst hh
    · have := h0.symm.trans hq
      simp at this
      subst this
      simp
    · have := h1.symm.trans hq
      simp at this
      subst this
      simp
    · have := h2.symm.trans hq
      simp at this
      subst this
      simp
    · have := h3.symm.trans hq
      simp at this
      subst this
      simp
  have hbest := trickChain_isBest t c0 c1 c2 c3
  refine ⟨(trickChain t c0 c1 c2 c3).1, (trickChain t c0 c1 c2 c3).2,
    trick_full_status t c0 c1 c2 c3 h0 h1 h2 h3, rfl,
    trickChain_mem t c0 c1 c2 c3 h0 h1 h2 h3, ?_, ?_⟩
  · rintro ⟨q, cq, hq, hqsp⟩
    have hS : hasSpadeL [c0, c1, c2, c3] = true := by
      simp only [hasSpadeL, List.any_eq_true]
      exact ⟨cq, hforward q cq hq, by simpa using hqsp⟩
    unfold IsBest at hbest
    rw [if_pos hS] at hbest
    exact ⟨hbest.1, fun q cq hq hqsp => hbest.2 cq (hforward q cq hq) hqsp⟩
  · intro hns
    have hS : hasSpadeL [c0, c1, c2, c3] = false := by
      by_cases hSp : hasSpadeL [c0, c1, c2, c3] = true
      · exfalso
        apply hns
        simp only [hasSpadeL, List.any_eq_true] at hSp
        obtain ⟨x, hx, hxs⟩ := hSp
        simp at hx
        rcases hx with rfl | rfl | rfl | rfl
        · exact ⟨t.start_player, x, h0, by simpa using hxs⟩
        · exact ⟨t.start_player.next, x, h1, by simpa using hxs⟩
        · exact ⟨t.start_player.next.next, x, h2, by simpa using hxs⟩
        · exact ⟨t.start_player.next.next.next, x, h3, by simpa using hxs⟩
      · simpa using hSp
    unfold IsBest at hbest
    rw [hS, if_neg (by simp)] at hbest
    refine ⟨?_, hbest.1, fun q cq hq hql => hbest.2 cq (hforward q cq hq) hql⟩
    unfold Trick.get_suite
    rw [h0]
    rfl

/-- A concrete full trick for the C6 witness: Clubs led, two Spades played,
player Three wins with the Spade 5. -/
def c6trick : Trick :=
  ⟨.One, ⟨some ⟨.Club, .Number 10⟩, some ⟨.Club, .Number 10⟩,
    some ⟨.Spade, .Number 5⟩, some ⟨.Spade, .Number 3⟩⟩⟩

/-- Witness for C6 at a concrete full trick. -/
theorem C6_witness :
    ∃ w wc, c6trick.get_status = .Won w wc ∧
      (w, wc) = trickChain c6trick ⟨.Club, .Number 10⟩ ⟨.Club, .Number 10⟩
        ⟨.Spade, .Number 5⟩ ⟨.Spade, .Number 3⟩ ∧
      c6trick.get_card w = some wc ∧
      ((∃ q cq, c6trick.get_card q = some cq ∧ cq.suite = Suite.Spade) →
        wc.suite = Suite.Spade ∧
        ∀ q cq, c6trick.get_card q = some cq → cq.suite = Suite.Spade →
          wc.value.ltv cq.value = false) ∧
      ((¬ ∃ q cq, c6trick.get_card q = some cq ∧ cq.suite = Suite.Spade) →
        c6trick.get_suite = some (Card.mk .Club (.Number 10)).suite ∧
        wc.suite = (Card.mk .Club (.Number 10)).suite ∧
        ∀ q cq, c6trick.get_card q = some cq → cq.suite = (Card.mk .Club (.Number 10)).suite →
          wc.value.ltv cq.value = false) :=
  C6_trick_winner c6trick ⟨.Club, .Number 10⟩ ⟨.Club, .Number 10⟩
    ⟨.Spade, .Number 5⟩ ⟨.Spade, .Number 3⟩ rfl rfl rfl rfl

/-- In any won trick, if some player played a Spade, the winning card is a
Spade. -/
theorem trick_won_spade (t : Trick) (w : Player) (wc : Card) (q : Player) (cq : Card)
    (hwon : t.get_status = .Won w wc) (hq : t.cards.get q = some cq)
    (hsp : cq.suite = Suite.Spade) : wc.suite = Suite.Spade := by
  cases h0 : t.cards.get t.start_player with
  | none =>
    unfold Trick.get_status at hwon
    simp [h0] at hwon
  | some c0 =>
  cases h1 : t.cards.get t.start_player.next with
  | none =>
    unfold Trick.get_status at hwon
    simp [h0, h1] at hwon
  | some c1 =>
  cases h2 : t.cards.get t.start_player.next.next with
  | none =>
    unfold Trick.get_status at hwon
    simp [h0, h1, h2] at hwon
  | some c2 =>
  cases h3 : t.cards.get t.start_player.next.next.next with
  | none =>
    unfold Trick.get_status at hwon
    simp [h0, h1, h2, h3] at hwon
  | some c3 =>
  obtain ⟨w2, wc2, hst, hchain, hmem, hspcase, hnscase⟩ :=
    C6_trick_winner t c0 c1 c2 c3 h0 h1 h2 h3
  have hww : TrickStatus.Won w wc = TrickStatus.Won w2 wc2 := hwon.symm.trans hst
  have hwc : wc = wc2 := by
    cases hww
    rfl
  rw [hwc]
  exact (hspcase ⟨q, cq, hq, hsp⟩).1

/-- Claim C2 counterexample: from a state where all four bids are Take(3)
and the trick is empty, player Two holding only the Spade Ace legally leads
it; the call succeeds, the trick is not complete, and the trump-broken flag
is still false, refuting the claim that it is set immediately. -/
def c2state : PublicState := { PublicState.default with
  seen_cards := PArray.from_value true
  bids := ⟨some (Bid.Take 3), some (Bid.Take 3), some (Bid.Take 3), some (Bid.Take 3)⟩ }

/-- The hand used for the C2 counterexample: only the Spade Ace. -/
def c2hand : CardSet := ((CardSet.mk 0).insert ⟨.Spade, .Ace⟩).2

/-- Claim C2 counterexample: a successful mid-trick Spade play leaves the
trump-broken flag false. -/
theorem C2_counterexample :
    (Card.mk Suite.Spade Value.Ace).suite = Suite.Spade ∧
    ((c2state.on_card_played Player.Two ⟨Suite.Spade, Value.Ace⟩ c2hand).map
      (fun r => (r.1, r.2.1.trump_broken))) = some (Except.ok (), false) := by
  refine ⟨rfl, rfl⟩

/-- Claim C2 (amended): a successful on_card_played of a Spade sets the
trump-broken flag only at trick completion: when the play does not complete
the trick the flag is unchanged, and when it completes a trick that is not
the 13th of the round the flag is set to true (the winning card of a trick
containing a Spade is itself a Spade). -/
theorem C2_trump_broken (s : PublicState) (p : Player) (c : Card) (hand : CardSet)
    (s' : PublicState) (h' : CardSet)
    (hsp : c.suite = Suite.Spade)
    (hok : s.on_card_played p c hand = some (.ok (), s', h')) :
    (∀ q, Trick.get_status ⟨s.trick.start_player, s.trick.cards.set p (some c)⟩ = .Waiting q →
       s'.trump_broken = s.trump_broken) ∧
    (∀ w wc, Trick.get_status ⟨s.trick.start_player, s.trick.cards.set p (some c)⟩ = .Won w wc →
       s.tricks_taken.sum + 1 ≠ 13 → s'.trump_broken = true) := by
  unfold PublicState.on_card_played at hok
  split at hok
  · simp at hok
  · split at hok
    · simp at hok
    · simp at hok
    · simp at hok
    · simp at hok
    · rename_i hst
      split at hok
      · simp at hok
      · split at hok
        · simp at hok
        · rename_i tt hplay
          obtain ⟨htr, hbids, hpend, hwin⟩ := status_play_cases hst
          unfold Trick.play_card at hplay
          simp only [htr] at hplay
          split at hplay
          · simp at hplay
          · rename_i hqp
            simp only [Except.ok.injEq] at hplay
            subst hplay
            simp at hok
            constructor
            · intro q hq
              have hafter : PublicState.after_card_played
                  { s with trick := ⟨s.trick.start_player, s.trick.cards.set p (some c)⟩ } =
                  (.ok (), { s with
                    trick := ⟨s.trick.start_player, s.trick.cards.set p (some c)⟩ }) := by
                unfold PublicState.after_card_played
                dsimp only
                simp only [hq]
              rw [← hok.2.1, hafter]
            · intro w wc hw h13
              have hwcsp : wc.suite = Suite.Spade :=
                trick_won_spade _ w wc p c hw (by rw [PArray.get_set]; simp) hsp
              have hafter : PublicState.after_card_played
                  { s with trick := ⟨s.trick.start_player, s.trick.cards.set p (some c)⟩ } =
                  (.ok (), { s with
                    tricks_taken := s.tricks_taken.set w (s.tricks_taken.get w + 1)
                    trump_broken := true
                    trick := Trick.new w }) := by
                unfold PublicState.after_card_played
                dsimp only
                simp only [hw, hwcsp, PArray.sum_set_succ]
                rw [if_neg h13]
                simp
              rw [← hok.2.1, hafter]

/-- A concrete state for the C2 witness: three Hearts are already in the
trick and player One, holding only the Spade 2, completes it. -/
def c2wstate : PublicState where
  scores := (Score.default, Score.default)
  round_results := []
  dealer := .One
  seen_cards := PArray.from_value true
  trump_broken := false
  pending_nil_player := none
  nil_rejected := PArray.from_value false
  bids := ⟨some (Bid.Take 3), some (Bid.Take 3), some (Bid.Take 3), some (Bid.Take 3)⟩
  tricks_taken := ⟨0, 4, 4, 0⟩
  trick := ⟨.Two, ⟨none, some ⟨.Heart, .Number 5⟩, some ⟨.Heart, .Number 8⟩,
    some ⟨.Heart, .Number 4⟩⟩⟩

/-- The hand used for the C2 witness: only the Spade 2. -/
def c2whand : CardSet := ((CardSet.mk 0).insert ⟨.Spade, .Number 2⟩).2

/-- Witness for C2: completing a trick with a Spade sets the trump-broken
flag. -/
theorem C2_witness :
    ∃ (s' : PublicState) (h' : CardSet),
      c2wstate.on_card_played Player.One ⟨Suite.Spade, Value.Number 2⟩ c2whand =
        some (.ok (), s', h') ∧ s'.trump_broken = true := by
  refine ⟨_, _, rfl, ?_⟩
  exact (C2_trump_broken c2wstate Player.One ⟨Suite.Spade, Value.Number 2⟩ c2whand _ _
    rfl rfl).2 Player.One ⟨Suite.Spade, Value.Number 2⟩ (by decide) (by decide)

/-! Claim C10: the live trick of a reachable state is never Won. -/

/-- A fresh trick waits on its leader. -/
theorem trick_new_waiting (p : Player) : (Trick.new p).get_status = .Waiting p := by
  cases p <;> rfl

/-- The state returned by after_card_played always carries a waiting trick:
a won trick is immediately replaced by a fresh one. -/
theorem after_trick_waiting (s : PublicState) :
    ∃ q, ((s.after_card_played).2).trick.get_status = .Waiting q := by
  unfold PublicState.after_card_played
  split
  · rename_i x heq
    exact ⟨x, heq⟩
  · rename_i wp wc heq
    dsimp only
    split
    · split
      · exact ⟨wp, trick_new_waiting wp⟩
      · exact ⟨_, trick_new_waiting _⟩
    · exact ⟨wp, trick_new_waiting wp⟩

/-- The reachable states: the initial state closed under every successful
mutating operation. -/
inductive Reachable : PublicState → Prop
  | init : Reachable PublicState.default
  | seen (s : PublicState) (p : Player) : Reachable s → Reachable (s.on_cards_seen p)
  | bid (s s' : PublicState) (p : Player) (b : Bid) : Reachable s →
      s.on_bid p b = some (.ok (), s') → Reachable s'
  | nil (s s' : PublicState) (p : Player) (a : Bool) : Reachable s →
      s.on_nil_approval p a = (.ok (), s') → Reachable s'
  | played (s s' : PublicState) (p : Player) (c : Card) (hand h' : CardSet) :
      Reachable s → s.on_card_played p c hand = some (.ok (), s', h') → Reachable s'
  | unchecked (s s' : PublicState) (p : Player) (c : Card) : Reachable s →
      s.unchecked_on_card_played p c = some (.ok (), s') → Reachable s'

/-- Invariant: in every reachable state the live trick is waiting on some
player. -/
theorem reachable_trick_waiting (s : PublicState) (h : Reachable s) :
    ∃ q, s.trick.get_status = .Waiting q := by
  induction h with
  | init => exact ⟨.Two, rfl⟩
  | seen s p hr ih => exact ih
  | bid s s' p b hr hok ih =>
    unfold PublicState.on_bid at hok
    split at hok
    · simp at hok
    · split at hok
      · simp at hok
      · split at hok
        · simp at hok
        · split at hok
          · simp at hok
          · split at hok
            · split at hok
              · simp at hok
              · simp at hok
                rw [← hok]
                exact ih
            · simp at hok
              rw [← hok]
              exact ih
  | nil s s' p a hr hok ih =>
    unfold PublicState.on_nil_approval at hok
    split at hok
    · split at hok
      · simp at hok
        rw [← hok]
        exact ih
      · simp at hok
    · simp at hok
  | played s s' p c hand h' hr hok ih =>
    unfold PublicState.on_card_played at hok
    split at hok
    · simp at hok
    · split at hok
      · simp at hok
      · simp at hok
      · simp at hok
      · simp at hok
      · split at hok
        · simp at hok
        · split at hok
          · simp at hok
          · rename_i tt hplay
            simp at hok
            rw [← hok.2.1]
            exact after_trick_waiting _
  | unchecked s s' p c hr hok ih =>
    unfold PublicState.unchecked_on_card_played at hok
    split at hok
    · simp at hok
    · simp at hok
    · simp at hok
    · simp at hok
    · split at hok
      · simp at hok
      · rename_i tt hplay
        simp at hok
        have hsnd : ((PublicState.after_card_played { s with trick := tt }).2) = s' := by
          rw [hok]
        rw [← hsnd]
        exact after_trick_waiting _

/-- Claim C10: in every reachable state in which all four bids are recorded,
no nil confirmation is pending and no team has won, the status is
WaitingForPlay of some player — the panic branch of get_status (modelled as
none) is never reached. -/
theorem C10_status_never_panics (s : PublicState) (h : Reachable s)
    (hbids : ∀ q, (s.bids.get q).isSome)
    (hpend : s.pending_nil_player = none)
    (hwin : get_winning_team_index s.scores = none) :
    ∃ p, s.get_status = some (.WaitingForPlay p) := by
  obtain ⟨q, htr⟩ := reachable_trick_waiting s h
  refine ⟨q, ?_⟩
  unfold PublicState.get_status
  rw [if_neg (by simp [hwin])]
  have hfind : s.dealer.next.seq.find? (fun p => (s.bids.get p).isNone) = none := by
    apply List.find?_eq_none.mpr
    intro x hx
    cases hbx : s.bids.get x with
    | none =>
      have := hbids x
      rw [hbx] at this
      simp at this
    | some b => simp
  simp only [hpend, hfind, htr]

/-- Intermediate states of the C10 witness: the four players bid Take(3)
in turn from the initial state. -/
def c10s1 : PublicState :=
  { PublicState.default with bids := PublicState.default.bids.set Player.Two (some (Bid.Take 3)) }

/-- Second bid recorded. -/
def c10s2 : PublicState :=
  { c10s1 with bids := c10s1.bids.set Player.Three (some (Bid.Take 3)) }

/-- Third bid recorded. -/
def c10s3 : PublicState :=
  { c10s2 with bids := c10s2.bids.set Player.Four (some (Bid.Take 3)) }

/-- Fourth bid recorded: bidding complete. -/
def c10s4 : PublicState :=
  { c10s3 with bids := c10s3.bids.set Player.One (some (Bid.Take 3)) }

/-- Witness for C10: after four successful bids from the initial state, the
status is WaitingForPlay of some player. -/
theorem C10_witness : ∃ p, c10s4.get_status = some (GameStatus.WaitingForPlay p) := by
  have r1 : Reachable c10s1 := Reachable.bid _ _ Player.Two (Bid.Take 3) Reachable.init rfl
  have r2 : Reachable c10s2 := Reachable.bid _ _ Player.Three (Bid.Take 3) r1 rfl
  have r3 : Reachable c10s3 := Reachable.bid _ _ Player.Four (Bid.Take 3) r2 rfl
  have r4 : Reachable c10s4 := Reachable.bid _ _ Player.One (Bid.Take 3) r3 rfl
  exact C10_status_never_panics c10s4 r4 (by intro q; cases q <;> rfl) rfl rfl

end Spades
